import Mathlib

/-!
Verification of the hanabi-live server shutdown / session core.

The Go source is shallowly embedded: straight-line functions become pure
Lean functions returning the list of externally visible actions they
perform, in source order; the admission gate (`blockAllIncomingMessages`
plus `commandWaitGroup`) together with the `shutdownImmediate` control flow
becomes a small-step transition relation.
-/

namespace Hanabi

/-! ## Data model: tables (from the `Table` fields used in `shutdown.go`) -/

/-- The fields of a `Table` that the shutdown orchestrator reads:
`t.ID`, `t.Running`, `t.Replay`, the owner session (`t.GetOwnerSession()`)
and the room name (`t.GetRoomName()`). -/
structure GoTable where
  id : Nat
  running : Bool
  replay : Bool
  owner : Nat
  roomName : String
  deriving DecidableEq, Repr

/-- `tables.GetList()` followed by `getTableAndLock(ctx, nil, id, true)`:
look a table up by its id in the table registry. -/
def getTableByID (tables : List GoTable) (id : Nat) : Option GoTable :=
  tables.find? (fun t => t.id == id)

/-- `countActiveTables`: a table counts as active when `t.Running && !t.Replay`. -/
def countActiveTables (tables : List GoTable) : Nat :=
  (tables.filter (fun t => t.running && !t.replay)).length

/-! ## Externally visible actions of the shutdown orchestrator -/

/-- `ActionType` constants referenced by `shutdown.go`
(only `ActionTypeEndGame` occurs there). -/
inductive GoActionType where
  | endGame
  deriving DecidableEq, Repr

/-- `EndCondition` constants referenced by `shutdown.go`
(only `EndConditionTerminated` occurs there). -/
inductive GoEndCondition where
  | terminated
  deriving DecidableEq, Repr

/-- One externally visible action performed by the shutdown orchestrator,
in the order the Go code performs them. -/
inductive ServerAction where
  | notifyAllShutdown
  | chatAll (msg : String)
  | chat (msg : String) (room : String)
  | spawnXMinutesLeft (minutes : Nat)
  | spawnShutdownWait
  | callShutdownImmediate
  | tableLeave (tableID : Nat) (ownerSession : Nat) (noLock : Bool)
  | endGameAction (tableID : Nat) (ownerSession : Nat) (typ : GoActionType)
      (target : Int) (value : GoEndCondition) (noLock : Bool)
  deriving DecidableEq, Repr

/-- The process-wide shutdown globals set by `shutdown()`:
`shuttingDown` and `datetimeShutdownInit` (time is modelled in seconds). -/
structure ShutdownGlobals where
  shuttingDown : Bool
  datetimeShutdownInit : Int
  deriving DecidableEq, Repr

/-- `ShutdownTimeout` in whole minutes, used only to format the trigger
broadcast (`int(ShutdownTimeout.Minutes())`). -/
def shutdownTimeoutMinutes (timeoutSeconds : Int) : Int :=
  timeoutSeconds.tdiv 60

/-- `shutdown(ctx)`: sets `shuttingDown`, records `datetimeShutdownInit`,
counts the active tables; with zero active tables it calls
`shutdownImmediate` directly, otherwise it broadcasts the notice and spawns
the two warning goroutines and the polling loop. -/
def shutdownTrigger (tables : List GoTable) (now timeoutSeconds : Int) :
    ShutdownGlobals × List ServerAction :=
  let g : ShutdownGlobals := { shuttingDown := true, datetimeShutdownInit := now }
  let numGames := countActiveTables tables
  if numGames = 0 then
    (g, [ServerAction.callShutdownImmediate])
  else
    (g, [ServerAction.notifyAllShutdown,
         ServerAction.chatAll ("The server will shutdown in " ++
           toString (shutdownTimeoutMinutes timeoutSeconds) ++ " minutes."),
         ServerAction.spawnXMinutesLeft 5,
         ServerAction.spawnXMinutesLeft 10,
         ServerAction.spawnShutdownWait])

/-- `shutdownXMinutesLeft(ctx, minutesLeft)`, after its sleep: does nothing
if the shutdown was canceled; at the 5-minute mark it first collects every
unstarted table (`!t.Running`), then ends each by `commandTableLeave` on
behalf of its owner session with `NoLock: true`; then it warns the lobby
and every room. -/
def shutdownXMinutesLeft (shuttingDown : Bool) (tables : List GoTable)
    (minutesLeft : Nat) : List ServerAction :=
  if shuttingDown = false then []
  else
    let leaves :=
      if minutesLeft = 5 then
        let unstartedTableIDs := (tables.filter (fun t => !t.running)).map (fun t => t.id)
        unstartedTableIDs.filterMap (fun tid =>
          (getTableByID tables tid).map (fun t =>
            ServerAction.tableLeave t.id t.owner true))
      else []
    let msg := "The server will shutdown in " ++ toString minutesLeft ++ " minutes."
    leaves ++ [ServerAction.chat msg "lobby"] ++
      tables.map (fun t =>
        ServerAction.chat
          (msg ++ " Finish your game soon or it will be automatically terminated!")
          t.roomName)

/-- Result of one iteration of the `shutdownWait` polling loop. -/
inductive WaitTick where
  | aborted
  | shutdownNow
  | terminated (acts : List ServerAction) (tables' : List GoTable)
  | keepWaiting
  deriving DecidableEq, Repr

/-- Modelled from the spec: the effect of `commandAction` with
`ActionTypeEndGame` (not part of the excerpted source) — the "end game"
action force-terminates the targeted game, so the table stops `Running`. -/
def applyEndGameTermination (tables : List GoTable) (ids : List Nat) : List GoTable :=
  tables.map (fun t => if t.id ∈ ids then { t with running := false } else t)

/-- One iteration of `shutdownWait(ctx)`: abort if canceled; with zero
active tables, (after the 10-second grace sleep) call `shutdownImmediate`
and stop; past the deadline with tables still active, force-terminate every
running non-replay table with an `ActionTypeEndGame` /
`EndConditionTerminated` command action and keep looping. -/
def shutdownWaitTick (shuttingDown : Bool) (tables : List GoTable)
    (elapsed timeoutSeconds : Int) : WaitTick :=
  if shuttingDown = false then .aborted
  else
    let numActiveTables := countActiveTables tables
    if numActiveTables = 0 then .shutdownNow
    else if 0 < numActiveTables ∧ timeoutSeconds ≤ elapsed then
      let tableIDsToTerminate :=
        (tables.filter (fun t => t.running && !t.replay)).map (fun t => t.id)
      let acts := tableIDsToTerminate.filterMap (fun tid =>
        (getTableByID tables tid).map (fun t =>
          ServerAction.endGameAction t.id t.owner GoActionType.endGame (-1)
            GoEndCondition.terminated true))
      .terminated acts (applyEndGameTermination tables tableIDsToTerminate)
    else .keepWaiting

/-! ## The admission gate and `shutdownImmediate` as a transition system

`waitForAllWebSocketCommandsToFinish` sets `blockAllIncomingMessages` and
then blocks on `commandWaitGroup.Wait()`; `shutdownImmediate` calls it and
only afterwards notifies the registered sessions. Concurrent WebSocket
commands increment the wait group on entry (when not blocked) and decrement
it on exit. The program counter `pc` tracks how far `shutdownImmediate`
has progressed. -/

/-- Program counter of the `shutdownImmediate` control flow:
0 = not yet called `waitForAllWebSocketCommandsToFinish`;
1 = `blockAllIncomingMessages` set, blocked in `commandWaitGroup.Wait()`;
2 = the wait returned; 3 = the registered sessions have been notified. -/
structure GateState where
  blockAllIncomingMessages : Bool
  commandWaitGroup : Nat
  pc : Nat
  sessionsNotified : Bool
  deriving DecidableEq, Repr

/-- Initial state when `shutdownImmediate` is entered: `n` commands are
still in flight, nothing blocked, nobody notified. -/
def gateInit (n : Nat) : GateState :=
  { blockAllIncomingMessages := false, commandWaitGroup := n, pc := 0,
    sessionsNotified := false }

/-- Interleaved small steps of the command workers and of the
`shutdownImmediate` thread. -/
inductive GateStep : GateState → GateState → Prop where
  | cmdEnter (s : GateState) (h : s.blockAllIncomingMessages = false) :
      GateStep s { s with commandWaitGroup := s.commandWaitGroup + 1 }
  | cmdExit (s : GateState) (h : 0 < s.commandWaitGroup) :
      GateStep s { s with commandWaitGroup := s.commandWaitGroup - 1 }
  | setBlock (s : GateState) (h : s.pc = 0) :
      GateStep s { s with blockAllIncomingMessages := true, pc := 1 }
  | waitReturns (s : GateState) (h1 : s.pc = 1) (h2 : s.commandWaitGroup = 0) :
      GateStep s { s with pc := 2 }
  | notifySessions (s : GateState) (h : s.pc = 2) :
      GateStep s { s with sessionsNotified := true, pc := 3 }

/-- Reachability in the gate transition system. -/
abbrev GateReach : GateState → GateState → Prop :=
  Relation.ReflTransGen GateStep

/-- The inductive invariant of the gate system. -/
def GateInv (s : GateState) : Prop :=
  (1 ≤ s.pc → s.blockAllIncomingMessages = true) ∧
  (2 ≤ s.pc → s.commandWaitGroup = 0) ∧
  (s.sessionsNotified = true → 2 ≤ s.pc)

theorem gateInv_init (n : Nat) : GateInv (gateInit n) := by
  refine ⟨?_, ?_, ?_⟩ <;> intro h <;> simp [gateInit] at h

theorem gateInv_step {s s' : GateState} (hs : GateInv s) (h : GateStep s s') :
    GateInv s' := by
  obtain ⟨h1, h2, h3⟩ := hs
  cases h with
  | cmdEnter hb =>
      refine ⟨h1, ?_, h3⟩
      intro hpc
      simp only at hpc
      exact absurd (h1 (by omega)) (by simp [hb])
  | cmdExit hc =>
      refine ⟨h1, ?_, h3⟩
      intro hpc
      simp only at hpc ⊢
      have := h2 hpc
      omega
  | setBlock hpc =>
      refine ⟨fun _ => rfl, ?_, ?_⟩
      · intro h'
        simp only at h'
        omega
      · intro h'
        simp only at h' ⊢
        have := h3 h'
        omega
  | waitReturns hpc hz =>
      exact ⟨fun _ => h1 (by omega), fun _ => hz, fun _ => by simp⟩
  | notifySessions hpc =>
      exact ⟨fun _ => h1 (by omega), fun _ => h2 (by omega), fun _ => by simp⟩

theorem gateInv_reach {s s' : GateState} (hs : GateInv s) (h : GateReach s s') :
    GateInv s' := by
  induction h with
  | refl => exact hs
  | tail _ hstep ih => exact gateInv_step ih hstep

/-- C1: immediate termination first sets `blockAllIncomingMessages` and waits
for `commandWaitGroup` to reach zero, and only after that wait returns does
it notify the registered sessions; hence in every reachable state in which
the sessions have been notified (or the wait has returned), the block flag
is set and no command is in flight. -/
theorem shutdownImmediate_drains_before_notify (n : Nat) (s : GateState)
    (h : GateReach (gateInit n) s) (hn : s.sessionsNotified = true ∨ 2 ≤ s.pc) :
    s.blockAllIncomingMessages = true ∧ s.commandWaitGroup = 0 := by
  obtain ⟨h1, h2, h3⟩ := gateInv_reach (gateInv_init n) h
  have hpc : 2 ≤ s.pc := hn.elim h3 id
  exact ⟨h1 (by omega), h2 hpc⟩

/-- Witness for C1: a concrete four-step run from one in-flight command to
the notified state. -/
theorem shutdownImmediate_drains_before_notify_witness :
    (⟨true, 0, 3, true⟩ : GateState).blockAllIncomingMessages = true ∧
    (⟨true, 0, 3, true⟩ : GateState).commandWaitGroup = 0 := by
  have h0 : GateReach (gateInit 1) (gateInit 1) := Relation.ReflTransGen.refl
  have h1 : GateReach (gateInit 1) ⟨false, 0, 0, false⟩ :=
    h0.tail (GateStep.cmdExit _ (by decide))
  have h2 : GateReach (gateInit 1) ⟨true, 0, 1, false⟩ :=
    h1.tail (GateStep.setBlock _ rfl)
  have h3 : GateReach (gateInit 1) ⟨true, 0, 2, false⟩ :=
    h2.tail (GateStep.waitReturns _ rfl rfl)
  have h4 : GateReach (gateInit 1) ⟨true, 0, 3, true⟩ :=
    h3.tail (GateStep.notifySessions _ rfl)
  exact shutdownImmediate_drains_before_notify 1 _ h4 (Or.inl rfl)

/-- C2: the shutdown trigger sets the armed flag and records the arm
timestamp; a table counts as active exactly when `Running && !Replay`; with
zero active tables the emitted trace is exactly the direct call to
`shutdownImmediate` — no broadcast, no warning timers, no polling loop. -/
theorem shutdownTrigger_spec (tables : List GoTable) (now timeoutSeconds : Int) :
    (shutdownTrigger tables now timeoutSeconds).1.shuttingDown = true ∧
    (shutdownTrigger tables now timeoutSeconds).1.datetimeShutdownInit = now ∧
    countActiveTables tables
      = (tables.filter (fun t => t.running && !t.replay)).length ∧
    (countActiveTables tables = 0 →
      (shutdownTrigger tables now timeoutSeconds).2
        = [ServerAction.callShutdownImmediate] ∧
      ServerAction.notifyAllShutdown ∉ (shutdownTrigger tables now timeoutSeconds).2 ∧
      (∀ m, ServerAction.spawnXMinutesLeft m ∉ (shutdownTrigger tables now timeoutSeconds).2) ∧
      ServerAction.spawnShutdownWait ∉ (shutdownTrigger tables now timeoutSeconds).2) := by
  refine ⟨?_, ?_, rfl, ?_⟩
  · by_cases h : countActiveTables tables = 0 <;> simp [shutdownTrigger, h]
  · by_cases h : countActiveTables tables = 0 <;> simp [shutdownTrigger, h]
  · intro h
    simp [shutdownTrigger, h]

/-- Witness for C2: with no tables at all the trigger goes straight to
immediate termination. -/
theorem shutdownTrigger_spec_witness :
    (shutdownTrigger [] 0 1800).2 = [ServerAction.callShutdownImmediate] ∧
    (shutdownTrigger [] 0 1800).1.shuttingDown = true :=
  ⟨((shutdownTrigger_spec [] 0 1800).2.2.2 rfl).1, (shutdownTrigger_spec [] 0 1800).1⟩

/-! ## Table-registry lookup lemmas -/

theorem getTableByID_mem {tables : List GoTable}
    (hnd : (tables.map (fun t => t.id)).Nodup)
    {t : GoTable} (ht : t ∈ tables) : getTableByID tables t.id = some t := by
  induction tables with
  | nil => cases ht
  | cons a rest ih =>
    rw [List.map_cons, List.nodup_cons] at hnd
    obtain ⟨ha, hrest⟩ := hnd
    cases ht with
    | head => simp [getTableByID, List.find?]
    | tail _ hmem =>
      have hne : (a.id == t.id) = false := by
        simp only [beq_eq_false_iff_ne, ne_eq]
        intro he
        exact ha (he ▸ List.mem_map_of_mem (fun t => t.id) hmem)
      simpa [getTableByID, List.find?, hne] using ih hrest hmem

theorem nodup_ids_inj {tables : List GoTable}
    (hnd : (tables.map (fun t => t.id)).Nodup)
    {t t' : GoTable} (ht : t ∈ tables) (ht' : t' ∈ tables)
    (he : t.id = t'.id) : t = t' := by
  have h1 := getTableByID_mem hnd ht
  have h2 := getTableByID_mem hnd ht'
  rw [he, h2] at h1
  exact (Option.some_inj.mp h1).symm

theorem filterMap_getTableByID {α : Type} {tables : List GoTable}
    (hnd : (tables.map (fun t => t.id)).Nodup)
    (l : List GoTable) (hl : ∀ t ∈ l, t ∈ tables) (g : GoTable → α) :
    (l.map (fun t => t.id)).filterMap
        (fun tid => (getTableByID tables tid).map g)
      = l.map g := by
  induction l with
  | nil => simp
  | cons a rest ih =>
    have ha : a ∈ tables := hl a (List.mem_cons_self a rest)
    rw [List.map_cons, List.filterMap_cons, getTableByID_mem hnd ha]
    simp only [Option.map_some', List.map_cons]
    rw [ih (fun t ht => hl t (List.mem_cons_of_mem a ht))]

/-- Recognizes the `commandTableLeave` actions in a trace. -/
def isTableLeave : ServerAction → Bool
  | .tableLeave _ _ _ => true
  | _ => false

/-- C4: at the 5-minutes-remaining warning (shutdown still armed), the
table-leave actions issued are exactly one per unstarted table (`Running`
unset), on behalf of that table's owner, and no running table is vacated. -/
theorem shutdownXMinutesLeft_five_spec (tables : List GoTable)
    (hnd : (tables.map (fun t => t.id)).Nodup) :
    shutdownXMinutesLeft false tables 5 = [] ∧
    (shutdownXMinutesLeft true tables 5).filter isTableLeave
      = (tables.filter (fun t => !t.running)).map
          (fun t => ServerAction.tableLeave t.id t.owner true) ∧
    (∀ t ∈ tables, t.running = true → ∀ o nl,
      ServerAction.tableLeave t.id o nl ∉ shutdownXMinutesLeft true tables 5) := by
  have htrace : shutdownXMinutesLeft true tables 5
      = ((tables.filter (fun t => !t.running)).map
            (fun t => ServerAction.tableLeave t.id t.owner true))
        ++ [ServerAction.chat
              ("The server will shutdown in " ++ toString 5 ++ " minutes.") "lobby"]
        ++ tables.map (fun t =>
            ServerAction.chat
              ("The server will shutdown in " ++ toString 5 ++ " minutes."
                ++ " Finish your game soon or it will be automatically terminated!")
              t.roomName) := by
    unfold shutdownXMinutesLeft
    rw [if_neg (by simp), if_pos rfl,
      filterMap_getTableByID hnd (tables.filter (fun t => !t.running))
        (fun t ht => List.mem_of_mem_filter ht)]
  refine ⟨rfl, ?_, ?_⟩
  · rw [htrace]
    simp [List.filter_append, List.filter_map, isTableLeave, Function.comp]
  · intro t ht hrun o nl hmem
    rw [htrace] at hmem
    simp only [List.mem_append, List.mem_map, List.mem_singleton] at hmem
    rcases hmem with (⟨t', ht', heq⟩ | hchat) | ⟨t', ht', heq⟩
    · simp only [ServerAction.tableLeave.injEq] at heq
      have ht'tab : t' ∈ tables := List.mem_of_mem_filter ht'
      have : t' = t := nodup_ids_inj hnd ht'tab ht heq.1
      subst this
      have := (List.mem_filter.mp ht').2
      simp [hrun] at this
    · exact absurd hchat (by simp)
    · exact absurd heq (by simp)

/-- Witness for C4: one unstarted and one running table; only the unstarted
one is vacated on behalf of its owner. -/
theorem shutdownXMinutesLeft_five_spec_witness :
    (shutdownXMinutesLeft true
        [⟨1, false, false, 7, "a"⟩, ⟨2, true, false, 8, "b"⟩] 5).filter isTableLeave
      = [ServerAction.tableLeave 1 7 true] ∧
    ∀ o nl, ServerAction.tableLeave 2 o nl
      ∉ shutdownXMinutesLeft true
          [⟨1, false, false, 7, "a"⟩, ⟨2, true, false, 8, "b"⟩] 5 := by
  have h := shutdownXMinutesLeft_five_spec
    [⟨1, false, false, 7, "a"⟩, ⟨2, true, false, 8, "b"⟩] (by decide)
  exact ⟨h.2.1, h.2.2 ⟨2, true, false, 8, "b"⟩ (by decide) rfl⟩

theorem countActiveTables_applyEndGame (tables : List GoTable) :
    countActiveTables (applyEndGameTermination tables
      ((tables.filter (fun t => t.running && !t.replay)).map (fun t => t.id))) = 0 := by
  unfold countActiveTables applyEndGameTermination
  rw [List.filter_map, List.length_map, List.length_eq_zero, List.filter_eq_nil_iff]
  intro t ht
  by_cases hmem :
      t.id ∈ (tables.filter (fun t => t.running && !t.replay)).map (fun t => t.id)
  · simp [Function.comp, hmem]
  · simp only [Function.comp, if_neg hmem]
    intro hp
    exact hmem (List.mem_map_of_mem _ (List.mem_filter.mpr ⟨ht, hp⟩))

/-- C3: on a polling tick with shutdown still armed, the deadline elapsed
and at least one active table, every running non-replay table receives an
`ActionTypeEndGame` action with value `EndConditionTerminated` on behalf of
its owner; afterwards (the end-game action force-terminating each game) no
table is active, so the next tick takes the immediate-termination branch
regardless of the clock. -/
theorem shutdownWait_deadline_spec (tables : List GoTable)
    (elapsed timeoutSeconds : Int)
    (hnd : (tables.map (fun t => t.id)).Nodup)
    (hactive : 0 < countActiveTables tables)
    (hdeadline : timeoutSeconds ≤ elapsed) :
    shutdownWaitTick true tables elapsed timeoutSeconds
      = WaitTick.terminated
          ((tables.filter (fun t => t.running && !t.replay)).map
            (fun t => ServerAction.endGameAction t.id t.owner GoActionType.endGame (-1)
              GoEndCondition.terminated true))
          (applyEndGameTermination tables
            ((tables.filter (fun t => t.running && !t.replay)).map (fun t => t.id))) ∧
    countActiveTables (applyEndGameTermination tables
      ((tables.filter (fun t => t.running && !t.replay)).map (fun t => t.id))) = 0 ∧
    (∀ elapsed' : Int,
      shutdownWaitTick true
        (applyEndGameTermination tables
          ((tables.filter (fun t => t.running && !t.replay)).map (fun t => t.id)))
        elapsed' timeoutSeconds = WaitTick.shutdownNow) := by
  refine ⟨?_, countActiveTables_applyEndGame tables, ?_⟩
  · unfold shutdownWaitTick
    rw [if_neg (by simp), if_neg (by omega), if_pos ⟨hactive, hdeadline⟩]
    dsimp only
    rw [filterMap_getTableByID hnd (tables.filter (fun t => t.running && !t.replay))
        (fun t ht => List.mem_of_mem_filter ht)]
  · intro elapsed'
    unfold shutdownWaitTick
    rw [if_neg (by simp), if_pos (countActiveTables_applyEndGame tables)]

/-- Witness for C3: one running table; at the deadline it is terminated by
the server and the following tick shuts the process down. -/
theorem shutdownWait_deadline_spec_witness :
    shutdownWaitTick true [⟨1, true, false, 7, "a"⟩] 100 100
      = WaitTick.terminated
          [ServerAction.endGameAction 1 7 GoActionType.endGame (-1)
            GoEndCondition.terminated true]
          [⟨1, false, false, 7, "a"⟩] ∧
    shutdownWaitTick true [⟨1, false, false, 7, "a"⟩] 200 100
      = WaitTick.shutdownNow := by
  have h := shutdownWait_deadline_spec [⟨1, true, false, 7, "a"⟩] 100 100
    (by decide) (by decide) (by decide)
  exact ⟨h.1, h.2.2 200⟩

/-! ## `checkImminentShutdown`

Durations are modelled in whole seconds. `int(timeLeft.Minutes())` in Go
truncates toward zero, which on whole-second durations is `Int.tdiv _ 60`. -/

/-- `checkImminentShutdown(s)`: returns `false` when not armed; otherwise
computes the whole minutes left before the deadline (truncated toward
zero) and, when that is at most 5, warns the requesting session and
returns `true`. The second component is the warning emitted via
`s.Warning`, if any; no shutdown state is written. -/
def checkImminentShutdown (shuttingDown : Bool) (timeoutSeconds elapsed : Int) :
    Bool × Option String :=
  if shuttingDown = false then (false, none)
  else
    let timeLeft := timeoutSeconds - elapsed
    let minutesLeft := timeLeft.tdiv 60
    if minutesLeft ≤ 5 then
      let msg := "The server is shutting down " ++
        (if minutesLeft = 0 then "momentarily"
         else if minutesLeft = 1 then "in 1 minute"
         else "in " ++ toString minutesLeft ++ " minutes") ++
        ". You cannot start any new games for the time being."
      (true, some msg)
    else (false, none)

theorem tdiv_sixty_le_five_iff (t : Int) : t.tdiv 60 ≤ 5 ↔ t < 360 := by
  rcases le_or_lt 0 t with h | h
  · rw [Int.tdiv_eq_ediv h (by norm_num)]
    constructor
    · intro hle
      by_contra hlt
      push_neg at hlt
      have h6 : (6 : Int) ≤ t / 60 :=
        (Int.le_ediv_iff_mul_le (by norm_num)).mpr (by linarith)
      omega
    · intro hlt
      by_contra hle
      push_neg at hle
      have h6 : (6 : Int) ≤ t / 60 := by omega
      have := (Int.le_ediv_iff_mul_le (by norm_num : (0 : Int) < 60)).mp h6
      omega
  · have h1 : t.tdiv 60 ≤ 0 := by
      have hrw : t = -(-t) := by ring
      rw [hrw, Int.neg_tdiv]
      have h2 : 0 ≤ (-t).tdiv 60 := Int.tdiv_nonneg (by omega) (by norm_num)
      omega
    constructor
    · intro _
      omega
    · intro _
      omega

/-- C5 counterexample: with a 1800-second timeout and 1470 seconds elapsed,
330 seconds (five and a half minutes, more than 5 minutes) remain, yet
`checkImminentShutdown` returns true — so "exactly when the remaining time
is ≤ 5 minutes" fails. -/
theorem checkImminentShutdown_le_five_counterexample :
    (checkImminentShutdown true 1800 1470).1 = true ∧
    ¬(1800 - 1470 ≤ (5 : Int) * 60) := by
  constructor
  · decide
  · decide

/-- C5 (amended): `checkImminentShutdown` returns false when not armed;
when armed it returns true exactly when the remaining time is less than
6 minutes (whole minutes remaining, truncated toward zero, at most 5), and
then warns the session with "momentarily" at 0 whole minutes, "in 1 minute"
at 1, and "in N minutes" otherwise; the embedding is a pure function of the
shutdown state, so no shutdown state is mutated. -/
theorem checkImminentShutdown_spec (timeoutSeconds elapsed : Int) :
    checkImminentShutdown false timeoutSeconds elapsed = (false, none) ∧
    ((checkImminentShutdown true timeoutSeconds elapsed).1 = true ↔
      timeoutSeconds - elapsed < 360) ∧
    (checkImminentShutdown true timeoutSeconds elapsed).2
      = (if timeoutSeconds - elapsed < 360 then
          some ("The server is shutting down " ++
            (if (timeoutSeconds - elapsed).tdiv 60 = 0 then "momentarily"
             else if (timeoutSeconds - elapsed).tdiv 60 = 1 then "in 1 minute"
             else "in " ++ toString ((timeoutSeconds - elapsed).tdiv 60) ++ " minutes") ++
            ". You cannot start any new games for the time being.")
         else none) := by
  refine ⟨rfl, ?_, ?_⟩
  · by_cases h : (timeoutSeconds - elapsed).tdiv 60 ≤ 5
    · have h' : timeoutSeconds - elapsed < 360 := (tdiv_sixty_le_five_iff _).mp h
      simp [checkImminentShutdown, h, h']
    · have h' : ¬(timeoutSeconds - elapsed < 360) :=
        fun hc => h ((tdiv_sixty_le_five_iff _).mpr hc)
      simp [checkImminentShutdown, h, h']
  · by_cases h : (timeoutSeconds - elapsed).tdiv 60 ≤ 5
    · have h' : timeoutSeconds - elapsed < 360 := (tdiv_sixty_le_five_iff _).mp h
      simp [checkImminentShutdown, h, h']
    · have h' : ¬(timeoutSeconds - elapsed < 360) :=
        fun hc => h ((tdiv_sixty_le_five_iff _).mpr hc)
      simp [checkImminentShutdown, h, h']

/-! ## `Session.Close` (session.go)

The `Session` struct declares `Closed`; the body of `Close` additionally
manipulates a legacy `open` flag, the transport `conn` and the `output`
channel. Closing a Go channel that is already closed panics. -/

structure GoSessionCloseState where
  Closed : Bool
  openFlag : Bool
  connClosed : Bool
  outputClosed : Bool
  deriving DecidableEq, Repr

inductive CloseOutcome where
  | ok (s : GoSessionCloseState)
  | panicked
  deriving DecidableEq, Repr

/-- `Session.Close` as written: returns at once when `s.Closed` is set;
otherwise sets `s.open = false`, closes the transport and closes the
`output` channel (a panic when that channel is already closed). The body
never writes `s.Closed`. -/
def sessionClose (s : GoSessionCloseState) : CloseOutcome :=
  if s.Closed then .ok s
  else if s.outputClosed then .panicked
  else .ok { s with openFlag := false, connClosed := true, outputClosed := true }

/-- C6 (code bug): from a fresh open session, the first `Close` closes the
transport but leaves `Closed` false, so the second `Close` is not a no-op —
it re-runs the close body and panics re-closing the output channel. -/
theorem sessionClose_not_idempotent :
    sessionClose ⟨false, true, false, false⟩
      = CloseOutcome.ok ⟨false, false, true, true⟩ ∧
    (sessionClose ⟨false, false, true, true⟩ = CloseOutcome.panicked ∧
      (⟨false, false, true, true⟩ : GoSessionCloseState).Closed = false) := by
  refine ⟨?_, ?_, rfl⟩ <;> decide

/-! ## `Session.Emit` (session.go) -/

/-- The state of a `websocket.Conn` visible to `Emit`: whether it has been
closed, and the text frames successfully written so far. -/
structure GoWSConn where
  closed : Bool
  frames : List String
  deriving DecidableEq, Repr

/-- `Conn.WriteMessage(websocket.TextMessage, msg)`: appends one text
frame, or fails (second component true) without writing anything when the
connection is closed. -/
def writeMessage (c : GoWSConn) (msg : String) : GoWSConn × Bool :=
  if c.closed then (c, true)
  else ({ c with frames := c.frames ++ [msg] }, false)

/-- The fields of `Session` that `Emit` touches. -/
structure EmitSession where
  Conn : Option GoWSConn
  Username : String
  deriving DecidableEq, Repr

/-- `Session.Emit(command, d)`: returns at once when the session or its
transport is nil; JSON-marshals the payload (`jsonMarshal` returns `none`
on a marshal error, in which case the message is logged and dropped);
otherwise writes the single text frame `command ++ " " ++ json`; a write
error is logged and the session is left as is. -/
def emit {α : Type} (jsonMarshal : α → Option String) (s : Option EmitSession)
    (command : String) (d : α) : Option EmitSession :=
  match s with
  | none => none
  | some sess =>
    match sess.Conn with
    | none => some sess
    | some conn =>
      match jsonMarshal d with
      | none => some sess
      | some ds =>
        let msg := command ++ " " ++ ds
        let res := writeMessage conn msg
        some { sess with Conn := some res.1 }

/-- C7: `Emit` is a no-op when the session is nil, its transport handle is
nil, or the transport has been closed; a payload that fails to serialize
is dropped with nothing written; otherwise exactly one text frame
`command ++ " " ++ json` is written. -/
theorem emit_spec {α : Type} (jsonMarshal : α → Option String)
    (command : String) (d : α) :
    emit jsonMarshal none command d = none ∧
    (∀ sess : EmitSession, sess.Conn = none →
      emit jsonMarshal (some sess) command d = some sess) ∧
    (∀ sess conn, sess.Conn = some conn → conn.closed = true →
      emit jsonMarshal (some sess) command d = some sess) ∧
    (∀ sess conn, sess.Conn = some conn → jsonMarshal d = none →
      emit jsonMarshal (some sess) command d = some sess) ∧
    (∀ sess conn ds, sess.Conn = some conn → conn.closed = false →
      jsonMarshal d = some ds →
      emit jsonMarshal (some sess) command d
        = some { sess with Conn := some ({ conn with frames := conn.frames ++ [command ++ " " ++ ds] }) }) := by
  refine ⟨rfl, ?_, ?_, ?_, ?_⟩
  · intro sess hc
    simp [emit, hc]
  · intro sess conn hc hcl
    rcases sess with ⟨c, u⟩
    simp only at hc
    subst hc
    rcases hm : jsonMarshal d with _ | ds <;>
      simp [emit, hm, writeMessage, hcl]
  · intro sess conn hc hm
    simp [emit, hc, hm]
  · intro sess conn ds hc hcl hm
    simp [emit, hc, hm, writeMessage, hcl]

/-- Witness for C7: a nil session, a successful send, and a marshal
failure, on concrete inputs. -/
theorem emit_spec_witness :
    emit (fun n : Nat => some (toString n)) none "chat" 3 = none ∧
    emit (fun n : Nat => some (toString n))
        (some ⟨some ⟨false, []⟩, "alice"⟩) "chat" 3
      = some ⟨some ⟨false, ["chat 3"]⟩, "alice"⟩ ∧
    emit (fun _ : Nat => none) (some ⟨some ⟨false, []⟩, "alice"⟩) "chat" 3
      = some ⟨some ⟨false, []⟩, "alice"⟩ := by
  have h1 := emit_spec (fun n : Nat => some (toString n)) "chat" (3 : Nat)
  have h2 := emit_spec (fun _ : Nat => none) "chat" (3 : Nat)
  refine ⟨h1.1, ?_, ?_⟩
  · exact h1.2.2.2.2 ⟨some ⟨false, []⟩, "alice"⟩ ⟨false, []⟩ "3" rfl rfl rfl
  · exact h2.2.2.2.1 ⟨some ⟨false, []⟩, "alice"⟩ ⟨false, []⟩ rfl rfl

/-! ## Session id assignment (session.go)

`sessionIDCounter` is a package-level `uint64` starting at 0;
`NewSession` assigns `atomic.AddUint64(&sessionIDCounter, 1)`.
uint64 arithmetic wraps modulo `2 ^ 64`. -/

def UINT64_MOD : Nat := 2 ^ 64

/-- `atomic.AddUint64(&counter, delta)`: wrapping uint64 addition,
returning the new value. -/
def addUint64 (counter delta : Nat) : Nat := (counter + delta) % UINT64_MOD

/-- The value of `sessionIDCounter` after `k` calls of `NewSession`,
starting from the initial value 0. -/
def sessionIDCounterAfter : Nat → Nat
  | 0 => 0
  | k + 1 => addUint64 (sessionIDCounterAfter k) 1

/-- The `SessionID` assigned by the `k`-th call of `NewSession`
(1-indexed): the counter value just after the atomic increment. -/
def sessionIDOfCall (k : Nat) : Nat := sessionIDCounterAfter k

theorem sessionIDCounterAfter_eq (k : Nat) :
    sessionIDCounterAfter k = k % UINT64_MOD := by
  induction k with
  | zero => rfl
  | succ n ih =>
    rw [sessionIDCounterAfter, ih, addUint64]
    simp only [UINT64_MOD]
    omega

/-- C8 counterexample: the uint64 counter wraps, so call number `2^64 + 1`
is assigned the same session id as call number 1 — across an unboundedly
long sequence of `NewSession` calls, ids are reused and not strictly
increasing. -/
theorem sessionID_reused_counterexample :
    sessionIDOfCall (2 ^ 64 + 1) = sessionIDOfCall 1 ∧ (2 ^ 64 + 1 : Nat) ≠ 1 := by
  constructor
  · rw [sessionIDOfCall, sessionIDOfCall, sessionIDCounterAfter_eq,
      sessionIDCounterAfter_eq]
    simp only [UINT64_MOD]
    omega
  · omega

/-- C8 (amended): as long as fewer than `2^64` sessions are ever created,
the counter never wraps, so ids are strictly increasing across the calls
(the first call being assigned id 1) and never reused. -/
theorem sessionID_monotone (m n : Nat) (_h1 : 1 ≤ m) (hmn : m < n)
    (hn : n < UINT64_MOD) :
    sessionIDOfCall 1 = 1 ∧ sessionIDOfCall m < sessionIDOfCall n := by
  constructor
  · rw [sessionIDOfCall, sessionIDCounterAfter_eq]
    simp only [UINT64_MOD]
    omega
  · rw [sessionIDOfCall, sessionIDOfCall, sessionIDCounterAfter_eq,
      sessionIDCounterAfter_eq, Nat.mod_eq_of_lt (lt_trans hmn hn),
      Nat.mod_eq_of_lt hn]
    exact hmn

/-- Witness for the amended C8 at the first two calls. -/
theorem sessionID_monotone_witness :
    sessionIDOfCall 1 = 1 ∧ sessionIDOfCall 1 < sessionIDOfCall 2 :=
  sessionID_monotone 1 2 (by omega) (by omega)
    (by simp only [UINT64_MOD]; omega)

/-! ## `httpWS` (http_ws.go)

The database and transport collaborators are modelled by the outcome of
each call the handler makes: `none` stands for a lookup error. -/

/-- Outcome of `models.Users.GetUsername`: a row, `pgx.ErrNoRows`
(an orphaned cookie user id), or another database error. -/
inductive UsernameLookup where
  | ok (username : String)
  | noRows
  | dbError
  deriving DecidableEq, Repr

/-- One inbound WebSocket handshake with the results of every external
call `httpWS` makes, in source order. -/
structure WSRequest where
  remoteAddrParses : Bool
  ip : String
  bannedIPsCheck : Option Bool
  mutedIPsCheck : Option Bool
  cookieUserID : Option Int
  usernameLookup : UsernameLookup
  friendsLookup : Option (List Int)
  reverseFriendsLookup : Option (List Int)
  hyphenatedLookup : Option Bool
  upgradeSucceeds : Bool
  deriving DecidableEq, Repr

/-- The fields `httpWS` copies onto the freshly created `Session` after a
successful handshake. -/
structure NewSessionData where
  userID : Int
  username : String
  muted : Bool
  friends : List Int
  reverseFriends : List Int
  hyphenated : Bool
  deriving DecidableEq, Repr

/-- What the handler did: an HTTP error response (status, whether the
cookie was deleted), or an established connection with its session. -/
inductive WSOutcome where
  | fail (status : Nat) (cookieDeleted : Bool)
  | connected (s : NewSessionData)
  deriving DecidableEq, Repr

/-- `httpWSInternalError`: logs, responds 500 and deletes the cookie. -/
def httpWSInternalError : WSOutcome := .fail 500 true

/-- `httpWSDeny`: logs, responds 401 and deletes the cookie. -/
def httpWSDeny : WSOutcome := .fail 401 true

/-- `httpWS(c)`: the checks in source order; on upgrade failure it responds
400 and deletes the cookie inline; on success it builds the session from
the looked-up identity. -/
def httpWS (req : WSRequest) : WSOutcome :=
  if req.remoteAddrParses = false then httpWSInternalError
  else
    match req.bannedIPsCheck with
    | none => httpWSInternalError
    | some true => httpWSDeny
    | some false =>
      match req.mutedIPsCheck with
      | none => httpWSInternalError
      | some muted =>
        match req.cookieUserID with
        | none => httpWSDeny
        | some userID =>
          match req.usernameLookup with
          | .noRows => httpWSDeny
          | .dbError => httpWSInternalError
          | .ok username =>
            match req.friendsLookup with
            | none => httpWSInternalError
            | some friendsMap =>
              match req.reverseFriendsLookup with
              | none => httpWSInternalError
              | some reverseFriendsMap =>
                match req.hyphenatedLookup with
                | none => httpWSInternalError
                | some hyphenated =>
                  if req.upgradeSucceeds = false then .fail 400 true
                  else .connected
                    ⟨userID, username, muted, friendsMap,
                      reverseFriendsMap, hyphenated⟩

/-- C9: on every failure path of `httpWS` — unparsable address, banned IP,
any lookup error, missing or orphaned cookie, or upgrade failure — the
handler responds with an HTTP error status (400, 401 or 500) and deletes
the client's cookie; no session is produced on such a path (the `fail`
outcome carries none). -/
theorem httpWS_failure_spec (req : WSRequest) :
    match httpWS req with
    | .fail status cookieDeleted =>
        (status = 400 ∨ status = 401 ∨ status = 500) ∧ cookieDeleted = true
    | .connected _ => True := by
  unfold httpWS httpWSInternalError httpWSDeny
  rcases req with ⟨addr, ip, banned, mutedc, cookie, userl, fr, rfr, hyph, upg⟩
  dsimp only
  cases addr <;> [simp; skip]
  rcases banned with _ | b
  · simp
  · cases b
    · rcases mutedc with _ | m
      · simp
      · rcases cookie with _ | uid
        · simp
        · rcases userl with uname | _ | _
          · rcases fr with _ | f
            · simp
            · rcases rfr with _ | rf
              · simp
              · rcases hyph with _ | hy
                · simp
                · cases upg <;> simp
          · simp
          · simp
    · simp

/-! ## Client replay navigation (`replay.ts`)

`goToSegment` reads the store once; the model returns the list of Redux
dispatches it performs. `finalSegment` stands for the asserted non-null
`state.ongoingGame.turn.segment!`. -/

structure ReplayGlobals where
  replayActive : Bool
  replaySegment : Int
  finalSegment : Int
  hypothetical : Bool
  sharedReplay : Bool
  useSharedSegments : Bool
  amSharedReplayLeader : Bool
  deriving DecidableEq, Repr

inductive ReplayDispatch where
  | replayEnter (segment : Int)
  | replayUseSharedSegments (useSharedSegments : Bool)
  | replaySegment (segment : Int)
  | replaySharedSegment (segment : Int)
  deriving DecidableEq, Repr

/-- `clamp(n, min, max) = Math.max(min, Math.min(n, max))`. -/
def jsClamp (n lo hi : Int) : Int := max lo (min n hi)

/-- `getCurrentReplaySegment()`. -/
def getCurrentReplaySegment (g : ReplayGlobals) : Int :=
  if g.replayActive then g.replaySegment else g.finalSegment

/-- `enter(customSegment)`: dispatches `replayEnter` unless the replay is
already active; without a custom segment the final segment (or 0) is
used. -/
def replayEnterDispatch (g : ReplayGlobals) (customSegment : Option Int) :
    List ReplayDispatch :=
  if g.replayActive then []
  else [ReplayDispatch.replayEnter (customSegment.getD g.finalSegment)]

/-- `goToSegment(segment, breakFree, force)`: clamps the target to
`[0, finalSegment]`, returns early when the clamped target equals the
current segment or when a hypothetical is active without `force`, then
enters the replay and dispatches the navigation actions. -/
def goToSegment (g : ReplayGlobals) (segment : Int) (breakFree force : Bool) :
    List ReplayDispatch :=
  let finalSegment := g.finalSegment
  let currentSegment := getCurrentReplaySegment g
  let newSegment := jsClamp segment 0 finalSegment
  if currentSegment = newSegment then []
  else if g.hypothetical = true ∧ force = false then []
  else
    replayEnterDispatch g (some newSegment)
    ++ (if g.sharedReplay = true ∧ breakFree = true ∧ g.useSharedSegments = true
          ∧ g.amSharedReplayLeader = false
        then [ReplayDispatch.replayUseSharedSegments false] else [])
    ++ [ReplayDispatch.replaySegment newSegment]
    ++ (if g.sharedReplay = true ∧ g.amSharedReplayLeader = true
          ∧ g.useSharedSegments = true
        then [ReplayDispatch.replaySharedSegment newSegment] else [])

/-- `back(breakFree = true)`. -/
def back (g : ReplayGlobals) (breakFree : Bool) : List ReplayDispatch :=
  goToSegment g (getCurrentReplaySegment g - 1) breakFree false

/-- `forward()`. -/
def forward (g : ReplayGlobals) : List ReplayDispatch :=
  goToSegment g (getCurrentReplaySegment g + 1) true false

/-- The segment a dispatch navigates to, when it carries one. -/
def dispatchSegment : ReplayDispatch → Option Int
  | .replayEnter s => some s
  | .replaySegment s => some s
  | .replaySharedSegment s => some s
  | .replayUseSharedSegments _ => none

/-- C10: every segment-carrying dispatch of `goToSegment` targets the
clamped value, which lies in `[0, finalSegment]`; the call is a no-op when
the clamped target equals the current segment or when a hypothetical is
active without force; hence `back()` at segment 0 and `forward()` at the
final segment dispatch nothing. -/
theorem goToSegment_spec (g : ReplayGlobals) (segment : Int)
    (breakFree force : Bool) (hfs : 0 ≤ g.finalSegment) :
    (∀ a ∈ goToSegment g segment breakFree force, ∀ s, dispatchSegment a = some s →
      s = jsClamp segment 0 g.finalSegment ∧ 0 ≤ s ∧ s ≤ g.finalSegment) ∧
    (jsClamp segment 0 g.finalSegment = getCurrentReplaySegment g →
      goToSegment g segment breakFree force = []) ∧
    (g.hypothetical = true → force = false →
      goToSegment g segment breakFree force = []) ∧
    (getCurrentReplaySegment g = 0 → back g breakFree = []) ∧
    (getCurrentReplaySegment g = g.finalSegment → forward g = []) := by
  have hclamp : ∀ x : Int, 0 ≤ jsClamp x 0 g.finalSegment ∧
      jsClamp x 0 g.finalSegment ≤ g.finalSegment := by
    intro x
    unfold jsClamp
    omega
  refine ⟨?_, ?_, ?_, ?_, ?_⟩
  · intro a ha s hs
    unfold goToSegment at ha
    by_cases h1 : getCurrentReplaySegment g = jsClamp segment 0 g.finalSegment
    · rw [if_pos h1] at ha
      cases ha
    · rw [if_neg h1] at ha
      by_cases h2 : g.hypothetical = true ∧ force = false
      · rw [if_pos h2] at ha
        cases ha
      · rw [if_neg h2] at ha
        simp only [replayEnterDispatch, List.mem_append] at ha
        rcases ha with ((henter | hshare) | hseg) | hshared
        · split at henter
          · cases henter
          · simp only [List.mem_singleton] at henter
            subst henter
            simp only [dispatchSegment, Option.getD_some, Option.some_inj] at hs
            exact ⟨hs.symm, hs ▸ (hclamp segment).1, hs ▸ (hclamp segment).2⟩
        · split at hshare
          · simp only [List.mem_singleton] at hshare
            subst hshare
            simp [dispatchSegment] at hs
          · cases hshare
        · simp only [List.mem_singleton] at hseg
          subst hseg
          simp only [dispatchSegment, Option.some_inj] at hs
          exact ⟨hs.symm, hs ▸ (hclamp segment).1, hs ▸ (hclamp segment).2⟩
        · split at hshared
          · simp only [List.mem_singleton] at hshared
            subst hshared
            simp only [dispatchSegment, Option.some_inj] at hs
            exact ⟨hs.symm, hs ▸ (hclamp segment).1, hs ▸ (hclamp segment).2⟩
          · cases hshared
  · intro h
    unfold goToSegment
    rw [if_pos h.symm]
  · intro hh hf
    unfold goToSegment
    by_cases h1 : getCurrentReplaySegment g = jsClamp segment 0 g.finalSegment
    · rw [if_pos h1]
    · rw [if_neg h1, if_pos ⟨hh, hf⟩]
  · intro hcur
    unfold back goToSegment
    rw [if_pos]
    rw [hcur]
    unfold jsClamp
    omega
  · intro hcur
    unfold forward goToSegment
    rw [if_pos]
    rw [hcur]
    unfold jsClamp
    omega

/-- Witness for C10: in an active replay over 5 segments, `back()` at
segment 0 and `forward()` at segment 5 dispatch nothing. -/
theorem goToSegment_spec_witness :
    back ⟨true, 0, 5, false, false, false, false⟩ true = [] ∧
    forward ⟨true, 5, 5, false, false, false, false⟩ = [] :=
  ⟨(goToSegment_spec ⟨true, 0, 5, false, false, false, false⟩ 0 true false
      (by decide)).2.2.2.1 rfl,
   (goToSegment_spec ⟨true, 5, 5, false, false, false, false⟩ 0 true false
      (by decide)).2.2.2.2 rfl⟩

end Hanabi
